import Mathlib

/-!
Shallow embedding of the EmotionHand emotion-state detection engine
(`EmotionHand_GitHub/emotion_state_detector.py`).

Python floats are modelled as exact rationals (ℚ); Python dicts with the
fixed key set relaxed/focused/stressed/fatigued are modelled as a record
whose argmax respects the dict insertion order relaxed, focused, stressed,
fatigued (Python `max` keeps the first key attaining the maximum); the
feature dict is a record of optional rationals, `dict.get(k, 0.5)` becoming
`Option.getD (1/2)`; `time.time()` is an explicit timestamp argument;
reasoning strings are modelled structurally as the data interpolated into
them.  Mutable detector state is threaded explicitly.
-/

namespace EmotionHand

/-- The `EmotionState` enumeration of the source. -/
inductive EmotionState
  | RELAXED
  | FOCUSED
  | STRESSED
  | FATIGUED
  | NEUTRAL
deriving DecidableEq, Repr

/-- The four lower-case keys of the score dict built by
`_calculate_raw_scores`, in their Python insertion order. -/
inductive StateKey
  | relaxed
  | focused
  | stressed
  | fatigued
deriving DecidableEq, Repr

/-- A full score dict over the four state keys. -/
structure Scores where
  relaxed : ℚ
  focused : ℚ
  stressed : ℚ
  fatigued : ℚ
deriving DecidableEq, Repr

def Scores.get (s : Scores) : StateKey → ℚ
  | .relaxed => s.relaxed
  | .focused => s.focused
  | .stressed => s.stressed
  | .fatigued => s.fatigued

/-- A possibly-empty score dict (what `_update_history` actually stores:
`raw_scores={}`). -/
structure StoredScores where
  relaxed : Option ℚ
  focused : Option ℚ
  stressed : Option ℚ
  fatigued : Option ℚ
deriving DecidableEq, Repr

def StoredScores.get (s : StoredScores) : StateKey → Option ℚ
  | .relaxed => s.relaxed
  | .focused => s.focused
  | .stressed => s.stressed
  | .fatigued => s.fatigued

/-- The empty dict `{}`. -/
def StoredScores.empty : StoredScores := ⟨none, none, none, none⟩

/-- Feature dict; only `rms`, `mdf` and `gsr_tonic` are ever read, each via
`features.get(key, 0.5)`. -/
structure Features where
  rms : Option ℚ
  mdf : Option ℚ
  gsr_tonic : Option ℚ
deriving DecidableEq, Repr

/-- `config['emotional_states']['thresholds']['relaxed']`. -/
structure RelaxedThresholds where
  rms_max : ℚ
  gsr_max : ℚ
deriving DecidableEq, Repr

/-- `config['emotional_states']['thresholds']['focused']`. -/
structure FocusedThresholds where
  rms_min : ℚ
  rms_max : ℚ
  gsr_min : ℚ
  gsr_max : ℚ
  mdf_min : ℚ
deriving DecidableEq, Repr

/-- `config['emotional_states']['thresholds']['stressed']`. -/
structure StressedThresholds where
  rms_min : ℚ
  gsr_min : ℚ
  mdf_min : ℚ
deriving DecidableEq, Repr

/-- `config['emotional_states']['thresholds']['fatigued']`. -/
structure FatiguedThresholds where
  mdf_max : ℚ
  duration_min : ℚ
deriving DecidableEq, Repr

structure Thresholds where
  relaxed : RelaxedThresholds
  focused : FocusedThresholds
  stressed : StressedThresholds
  fatigued : FatiguedThresholds
deriving DecidableEq, Repr

/-- `config['emotional_states']['smoothing']`. -/
structure Smoothing where
  alpha : ℚ
  voting_window_sec : ℚ
  rejection_threshold : ℚ
deriving DecidableEq, Repr

/-- A fully populated configuration (all keys present). -/
structure Config where
  thresholds : Thresholds
  smoothing : Smoothing
deriving DecidableEq, Repr

/-- Structural model of the reasoning strings built by the detector. -/
inductive Reasoning
  | fatigueOverride
  | lowConfidence (candidate : StateKey) (score : ℚ)
  | explained (state : EmotionState) (confidence rms mdf gsr : ℚ)
  | ensembleCombined (ruleConfidence : ℚ)
deriving DecidableEq, Repr

/-- The `StatePrediction` dataclass returned to the caller. -/
structure StatePrediction where
  state : EmotionState
  confidence : ℚ
  rawScores : Scores
  reasoning : Reasoning
  timestamp : ℚ
deriving DecidableEq, Repr

/-- The `StatePrediction` copy appended to `state_history` by
`_update_history`; its `raw_scores` field is the empty dict. -/
structure HistEntry where
  state : EmotionState
  confidence : ℚ
  rawScores : StoredScores
  timestamp : ℚ
deriving DecidableEq, Repr

/-- The mutable fields of `RuleBasedDetector`. -/
structure DState where
  stateHistory : List HistEntry
  confHistory : List ℚ
  fatigueStart : Option ℚ
  rmsDeclineRate : ℚ
  transitionCount : ℕ
  lastState : EmotionState
deriving DecidableEq, Repr

/-- Construction-time detector state (`__init__`). -/
def initState : DState :=
  { stateHistory := []
    confHistory := []
    fatigueStart := none
    rmsDeclineRate := 0
    transitionCount := 0
    lastState := .NEUTRAL }

/-- `deque(maxlen=n)` append: drop from the left once over capacity. -/
def dequeAppend {α : Type} (maxlen : ℕ) (xs : List α) (x : α) : List α :=
  let ys := xs ++ [x]
  ys.drop (ys.length - maxlen)

/-- `int(voting_window_sec * 10)`, the `state_history` capacity. -/
def histCap (cfg : Config) : ℕ := (cfg.smoothing.voting_window_sec * 10).floor.toNat

/-- First update of `_calculate_relax_score` (`score = 1.0`): penalize rms
overshoot over `rms_max` (factor 2, clamped at 0) or reward the margin
below it (factor 1.5, clamped at 1). -/
def relaxStepRms (th : RelaxedThresholds) (rms : ℚ) : ℚ :=
  if rms > th.rms_max then max 0 (1 - (rms - th.rms_max) * 2)
  else min 1 (1 + (th.rms_max - rms) * (3/2))

/-- Second update of `_calculate_relax_score`: penalize gsr overshoot over
`gsr_max` (factor 2, clamped at 0). -/
def relaxStepGsr (th : RelaxedThresholds) (score gsr_tonic : ℚ) : ℚ :=
  if gsr_tonic > th.gsr_max then max 0 (score - (gsr_tonic - th.gsr_max) * 2)
  else score

/-- `_calculate_relax_score`; `mdf` is accepted but unused, as in the
source. -/
def calcRelaxScore (th : RelaxedThresholds) (rms gsr_tonic _mdf : ℚ) : ℚ :=
  relaxStepGsr th (relaxStepRms th rms) gsr_tonic

/-- First update of `_calculate_focus_score` (`score = 0.5`): inside the
rms band, reward closeness to the band centre (clamped at 1); outside it,
penalize the normalized distance (clamped at 0).
Note: rational division by zero is 0 in Lean, where Python would raise
`ZeroDivisionError` on a zero-width band. -/
def focusStepRms (th : FocusedThresholds) (rms : ℚ) : ℚ :=
  let c := (th.rms_min + th.rms_max) / 2
  let r := th.rms_max - th.rms_min
  if th.rms_min ≤ rms ∧ rms ≤ th.rms_max then min 1 (1/2 + (1 - |rms - c| / r))
  else max 0 (1/2 - |rms - c| / r)

/-- Second update of `_calculate_focus_score`: half-weight reward for gsr
inside its band; no change outside it. -/
def focusStepGsr (th : FocusedThresholds) (score gsr_tonic : ℚ) : ℚ :=
  let c := (th.gsr_min + th.gsr_max) / 2
  let r := th.gsr_max - th.gsr_min
  if th.gsr_min ≤ gsr_tonic ∧ gsr_tonic ≤ th.gsr_max then
    min 1 (score + (1 - |gsr_tonic - c| / r) * (1/2))
  else score

/-- Third update of `_calculate_focus_score`: reward mdf excess over
`mdf_min` (factor 0.5, clamped at 1).  The source guards with
`focus_threshold.get('mdf_min', 0.5)` and then reads `['mdf_min']`
directly; on a fully populated configuration both are `th.mdf_min`. -/
def focusStepMdf (th : FocusedThresholds) (score mdf : ℚ) : ℚ :=
  if mdf ≥ th.mdf_min then min 1 (score + (mdf - th.mdf_min) * (1/2)) else score

/-- `_calculate_focus_score`. -/
def calcFocusScore (th : FocusedThresholds) (rms gsr_tonic mdf : ℚ) : ℚ :=
  focusStepMdf th (focusStepGsr th (focusStepRms th rms) gsr_tonic) mdf

/-- First update of `_calculate_stress_score` (`score = 0.3`): reward rms
excess over `rms_min` (factor 2, clamped at 1). -/
def stressStepRms (th : StressedThresholds) (rms : ℚ) : ℚ :=
  if rms ≥ th.rms_min then min 1 (3/10 + (rms - th.rms_min) * 2) else 3/10

/-- Second update of `_calculate_stress_score`: reward gsr excess over
`gsr_min` (factor 1.5, clamped at 1). -/
def stressStepGsr (th : StressedThresholds) (score gsr_tonic : ℚ) : ℚ :=
  if gsr_tonic ≥ th.gsr_min then min 1 (score + (gsr_tonic - th.gsr_min) * (3/2))
  else score

/-- Third update of `_calculate_stress_score`: reward mdf excess over
`mdf_min` (factor 1.0, clamped at 1).  The source guards with
`stress_threshold.get('mdf_min', 0.6)` and then reads `['mdf_min']`
directly; on a fully populated configuration both are `th.mdf_min`. -/
def stressStepMdf (th : StressedThresholds) (score mdf : ℚ) : ℚ :=
  if mdf ≥ th.mdf_min then min 1 (score + (mdf - th.mdf_min) * 1) else score

/-- `_calculate_stress_score`. -/
def calcStressScore (th : StressedThresholds) (rms gsr_tonic mdf : ℚ) : ℚ :=
  stressStepMdf th (stressStepGsr th (stressStepRms th rms) gsr_tonic) mdf

/-- The unnormalized score dict built by `_calculate_raw_scores` before the
normalization step (fatigued gets the constant base score 0.3). -/
def preScores (cfg : Config) (f : Features) : Scores :=
  let rms := f.rms.getD (1/2)
  let mdf := f.mdf.getD (1/2)
  let gsr_tonic := f.gsr_tonic.getD (1/2)
  { relaxed := calcRelaxScore cfg.thresholds.relaxed rms gsr_tonic mdf
    focused := calcFocusScore cfg.thresholds.focused rms gsr_tonic mdf
    stressed := calcStressScore cfg.thresholds.stressed rms gsr_tonic mdf
    fatigued := 3/10 }

def Scores.total (s : Scores) : ℚ := s.relaxed + s.focused + s.stressed + s.fatigued

/-- The normalization step of `_calculate_raw_scores`: divide every score
by the sum when the sum is positive, otherwise return the dict unchanged. -/
def normalizeScores (s : Scores) : Scores :=
  if s.total > 0 then
    { relaxed := s.relaxed / s.total
      focused := s.focused / s.total
      stressed := s.stressed / s.total
      fatigued := s.fatigued / s.total }
  else s

/-- `_calculate_raw_scores` (the `emg_features`/`gsr_features` arguments of
the source are never read and are omitted). -/
def calcRawScores (cfg : Config) (f : Features) : Scores :=
  normalizeScores (preScores cfg f)

/-- `max(scores, key=scores.get)`: keep the current key unless a later key
in iteration order is strictly greater. -/
def better (s : Scores) (b k : StateKey) : StateKey :=
  if s.get k > s.get b then k else b

/-- Argmax over the score dict in insertion order relaxed, focused,
stressed, fatigued; ties keep the earlier key. -/
def bestKey (s : Scores) : StateKey :=
  better s (better s (better s .relaxed .focused) .stressed) .fatigued

/-- The `state_mapping` dict of `predict_state` restricted to the four keys
that can actually occur. -/
def stateMapping : StateKey → EmotionState
  | .relaxed => .RELAXED
  | .focused => .FOCUSED
  | .stressed => .STRESSED
  | .fatigued => .FATIGUED

/-- `_apply_smoothing`: with nonempty history, blend each raw score with
the value stored for that key in the last history entry, defaulting to the
raw score itself when the key is absent there; with empty history return
the raw scores unchanged. -/
def applySmoothing (alpha : ℚ) (hist : List HistEntry) (raw : Scores) : Scores :=
  match hist.getLast? with
  | some lastP =>
      let blend := fun (k : StateKey) =>
        alpha * raw.get k + (1 - alpha) * ((lastP.rawScores.get k).getD (raw.get k))
      { relaxed := blend .relaxed
        focused := blend .focused
        stressed := blend .stressed
        fatigued := blend .fatigued }
  | none => raw

/-- The smoothed scores a call computes from detector state and input. -/
def smoothedScores (cfg : Config) (s : DState) (f : Features) : Scores :=
  applySmoothing cfg.smoothing.alpha s.stateHistory (calcRawScores cfg f)

/-- The `rms_decline_rate` update at the top of `_detect_fatigue`: when at
least 10 confidences are on record, recompute the rate from a window that
the source builds as five copies of the current rms sample
(`recent_rms = [features.get('rms', 0.5)] * 5`), taking
`(recent_rms[-1] - recent_rms[-3]) / 3`; otherwise keep the old rate. -/
def updatedDeclineRate (s : DState) (rms : ℚ) : ℚ :=
  if s.confHistory.length ≥ 10 then
    let recentConfs := s.confHistory.drop (s.confHistory.length - 10)
    if recentConfs.length ≥ 5 then
      let recentRms : List ℚ := List.replicate 5 rms
      if recentRms.length ≥ 3 then
        (recentRms.getD (recentRms.length - 1) 0 - recentRms.getD (recentRms.length - 3) 0) / 3
      else s.rmsDeclineRate
    else s.rmsDeclineRate
  else s.rmsDeclineRate

/-- The three fatigue conditions of `_detect_fatigue`, evaluated against
the decline rate as updated within the same call. -/
def qualifiesFatigue (cfg : Config) (s : DState) (f : Features) : Bool :=
  let rms := f.rms.getD (1/2)
  let mdf := f.mdf.getD (1/2)
  decide (mdf < cfg.thresholds.fatigued.mdf_max ∧ rms < 3/10 ∧
    updatedDeclineRate s rms < -(1/50))

/-- `_detect_fatigue`: update the decline rate, then if all three fatigue
conditions hold start or check the fatigue timer (returning true once
`now - fatigue_start_time` reaches `duration_min`), else clear the timer. -/
def detectFatigue (cfg : Config) (s : DState) (f : Features) (now : ℚ) :
    Bool × DState :=
  let rms := f.rms.getD (1/2)
  let s1 := { s with rmsDeclineRate := updatedDeclineRate s rms }
  if qualifiesFatigue cfg s f then
    match s1.fatigueStart with
    | none => (false, { s1 with fatigueStart := some now })
    | some t0 =>
        if now - t0 ≥ cfg.thresholds.fatigued.duration_min then (true, s1)
        else (false, s1)
  else (false, { s1 with fatigueStart := none })

/-- `_generate_reasoning`, modelled as the data interpolated into the
string: the state, the score looked up for it (`scores.get(state_key,
scores.get('neutral', 0.5))`, which is 0.5 for Neutral since no `neutral`
key exists), and the three feature values. -/
def genReasoning (st : EmotionState) (scores : Scores) (f : Features) : Reasoning :=
  let rms := f.rms.getD (1/2)
  let mdf := f.mdf.getD (1/2)
  let gsr_tonic := f.gsr_tonic.getD (1/2)
  let confidence : ℚ :=
    match st with
    | .RELAXED => scores.relaxed
    | .FOCUSED => scores.focused
    | .STRESSED => scores.stressed
    | .FATIGUED => scores.fatigued
    | .NEUTRAL => 1/2
  .explained st confidence rms mdf gsr_tonic

/-- `_update_history`: append a history copy of the prediction whose
`raw_scores` is the empty dict, append the confidence, and bump the
transition counter when the state changed. -/
def updateHistory (cfg : Config) (s : DState) (st : EmotionState)
    (conf now : ℚ) : DState :=
  let entry : HistEntry :=
    { state := st, confidence := conf, rawScores := .empty, timestamp := now }
  let s1 := { s with
    stateHistory := dequeAppend (histCap cfg) s.stateHistory entry
    confHistory := dequeAppend 20 s.confHistory conf }
  if st ≠ s1.lastState then
    { s1 with transitionCount := s1.transitionCount + 1, lastState := st }
  else s1

/-- `RuleBasedDetector.predict_state`, with `time.time()` passed in as
`now`; returns the prediction and the updated detector state. -/
def predictState (cfg : Config) (s : DState) (f : Features) (now : ℚ) :
    StatePrediction × DState :=
  let raw := calcRawScores cfg f
  let smoothed := smoothedScores cfg s f
  let fat := detectFatigue cfg s f now
  let decided : EmotionState × ℚ × Reasoning :=
    if fat.1 then
      (.FATIGUED, max (7/10) smoothed.fatigued, .fatigueOverride)
    else
      let best := bestKey smoothed
      let conf := smoothed.get best
      if conf < cfg.smoothing.rejection_threshold then
        (.NEUTRAL, 1 - conf, .lowConfidence best (smoothed.get best))
      else
        (stateMapping best, conf, genReasoning (stateMapping best) smoothed f)
  let s2 := updateHistory cfg fat.2 decided.1 decided.2.1 now
  ({ state := decided.1
     confidence := decided.2.1
     rawScores := raw
     reasoning := decided.2.2
     timestamp := now }, s2)

/-- Run the detector over a list of (features, timestamp) calls. -/
def runDetector (cfg : Config) (s : DState) :
    List (Features × ℚ) → List StatePrediction × DState
  | [] => ([], s)
  | (f, t) :: rest =>
      let pr := predictState cfg s f t
      let tail := runDetector cfg pr.2 rest
      (pr.1 :: tail.1, tail.2)

/-- Position of a key in the score-dict insertion order. -/
def keyIdx : StateKey → ℕ
  | .relaxed => 0
  | .focused => 1
  | .stressed => 2
  | .fatigued => 3

/-- The result record of `get_state_statistics`; the Python function
returns the empty dict `{}` on an empty history, modelled as `none`. -/
structure Stats where
  totalPredictions : ℕ
  distribution : List (EmotionState × ℚ)
  averageConfidence : ℚ
  transitionRate : ℚ
  mostCommonState : Option EmotionState
deriving DecidableEq, Repr

/-- The key order of the `state_counts` dict: states in order of first
appearance in the history. -/
def statesInOrder (hist : List HistEntry) : List EmotionState :=
  hist.foldl (fun acc e => if e.state ∈ acc then acc else acc ++ [e.state]) []

/-- `max(d, key=d.get)` over an association list in insertion order. -/
def firstMaxBy (l : List (EmotionState × ℚ)) : Option EmotionState :=
  match l with
  | [] => none
  | p0 :: rest => some (rest.foldl (fun b p => if p.2 > b.2 then p else b) p0).1

/-- `get_state_statistics`: the empty dict on empty history, otherwise the
distribution over states (by first appearance), mean confidence,
transition rate, and the most common state. -/
def getStateStatistics (s : DState) : Option Stats :=
  match s.stateHistory with
  | [] => none
  | _ =>
      let total : ℕ := s.stateHistory.length
      let dist : List (EmotionState × ℚ) :=
        (statesInOrder s.stateHistory).map (fun st =>
          (st, ((s.stateHistory.filter (fun e => decide (e.state = st))).length : ℚ) / total))
      some { totalPredictions := total
             distribution := dist
             averageConfidence :=
               if s.confHistory.isEmpty then 0 else s.confHistory.sum / s.confHistory.length
             transitionRate := (s.transitionCount : ℚ) / ((max 1 total : ℕ) : ℚ)
             mostCommonState := firstMaxBy dist }

/-- `reset_history`: clear both deques, zero the transition counter and
decline rate, reset the last state and the fatigue timer. -/
def resetHistory (s : DState) : DState :=
  { s with stateHistory := []
           confHistory := []
           transitionCount := 0
           lastState := .NEUTRAL
           fatigueStart := none
           rmsDeclineRate := 0 }

/-- The fixed `ensemble_weights` of `EnsembleDetector.__init__`. -/
structure EnsembleWeights where
  rule_based : ℚ
  ml_models : ℚ
deriving DecidableEq, Repr

def ensembleWeights : EnsembleWeights := { rule_based := 4/5, ml_models := 1/5 }

/-- `_ensemble_predictions`: with no ML scores return the rule scores
unchanged; otherwise take the weighted average per state and renormalize. -/
def ensemblePredictions (w : EnsembleWeights) (ruleScores : Scores) :
    Option Scores → Scores
  | none => ruleScores
  | some ml => normalizeScores
      { relaxed := w.rule_based * ruleScores.relaxed + w.ml_models * ml.relaxed
        focused := w.rule_based * ruleScores.focused + w.ml_models * ml.focused
        stressed := w.rule_based * ruleScores.stressed + w.ml_models * ml.stressed
        fatigued := w.rule_based * ruleScores.fatigued + w.ml_models * ml.fatigued }

/-- `EnsembleDetector.predict_state`: run the rule-based prediction, feed
its raw scores (there are no ML detectors, so `ml_scores = {}`) through
`_ensemble_predictions`, then take a plain argmax over the result. -/
def ensemblePredict (cfg : Config) (s : DState) (f : Features) (now : ℚ) :
    StatePrediction × DState :=
  let rp := predictState cfg s f now
  let mlScores : Option Scores := none
  let finalScores := ensemblePredictions ensembleWeights rp.1.rawScores mlScores
  let best := bestKey finalScores
  ({ state := stateMapping best
     confidence := finalScores.get best
     rawScores := finalScores
     reasoning := .ensembleCombined rp.1.confidence
     timestamp := now }, rp.2)

/-! ### Raw configuration dicts with possibly missing keys (for the
construction-time versus call-time error analysis) -/

structure RelaxedDict where
  rms_max : Option ℚ
  gsr_max : Option ℚ
deriving DecidableEq, Repr

structure FocusedDict where
  rms_min : Option ℚ
  rms_max : Option ℚ
  gsr_min : Option ℚ
  gsr_max : Option ℚ
  mdf_min : Option ℚ
deriving DecidableEq, Repr

structure StressedDict where
  rms_min : Option ℚ
  gsr_min : Option ℚ
  mdf_min : Option ℚ
deriving DecidableEq, Repr

structure FatiguedDict where
  mdf_max : Option ℚ
  duration_min : Option ℚ
deriving DecidableEq, Repr

structure ThreshDict where
  relaxed : Option RelaxedDict
  focused : Option FocusedDict
  stressed : Option StressedDict
  fatigued : Option FatiguedDict
deriving DecidableEq, Repr

structure SmoothDict where
  alpha : Option ℚ
  voting_window_sec : Option ℚ
  rejection_threshold : Option ℚ
deriving DecidableEq, Repr

structure EmoDict where
  thresholds : Option ThreshDict
  smoothing : Option SmoothDict
deriving DecidableEq, Repr

structure CfgDict where
  emotional_states : Option EmoDict
deriving DecidableEq, Repr

/-- `RuleBasedDetector.__init__` against a raw configuration dict: it
reads `config['emotional_states']['thresholds']`, the `smoothing` block
and (to size `state_history`) `smoothing['voting_window_sec']`; any of
those missing raises a key error at construction.  No per-state threshold
key is read here. -/
def constructDetector (c : CfgDict) : Except String (ThreshDict × SmoothDict × ℕ) :=
  match c.emotional_states with
  | none => .error ("emotional_states")
  | some es =>
      match es.thresholds with
      | none => .error ("thresholds")
      | some th =>
          match es.smoothing with
          | none => .error ("smoothing")
          | some sm =>
              match sm.voting_window_sec with
              | none => .error ("voting_window_sec")
              | some v => .ok (th, sm, (v * 10).floor.toNat)

/-- `_calculate_relax_score` against the raw thresholds dict: the
per-state keys `relaxed`, `rms_max` and `gsr_max` are first read here,
i.e. during a prediction call, not at construction. -/
def calcRelaxScoreE (th : ThreshDict) (rms gsr_tonic : ℚ) : Except String ℚ :=
  match th.relaxed with
  | none => .error ("relaxed")
  | some rt =>
      match rt.rms_max with
      | none => .error ("rms_max")
      | some rmax =>
          let s1 : ℚ :=
            if rms > rmax then max 0 (1 - (rms - rmax) * 2)
            else min 1 (1 + (rmax - rms) * (3/2))
          match rt.gsr_max with
          | none => .error ("gsr_max")
          | some gmax =>
              .ok (if gsr_tonic > gmax then max 0 (s1 - (gsr_tonic - gmax) * 2)
                   else s1)

/-- The mdf update of `_calculate_focus_score` against the raw dict
(source lines 196–198): the guard reads
`focus_threshold.get('mdf_min', 0.5)` — silently defaulting a missing
key — while the reward inside reads `focus_threshold['mdf_min']`
directly, raising when it is missing. -/
def focusMdfStepE (ft : FocusedDict) (score mdf : ℚ) : Except String ℚ :=
  if mdf ≥ ft.mdf_min.getD (1/2) then
    match ft.mdf_min with
    | none => .error ("mdf_min")
    | some m => .ok (min 1 (score + (mdf - m) * (1/2)))
  else .ok score

/-! ### Run predicates and concrete inputs -/

/-- All stored history entries carry the empty score dict — the shape
`_update_history` always writes. -/
def histClean (s : DState) : Prop :=
  ∀ e ∈ s.stateHistory, e.rawScores = StoredScores.empty

instance (s : DState) : Decidable (histClean s) :=
  List.decidableBAll _ s.stateHistory

/-- All stored score values (if any) lie in [0, 1]. -/
def histBounded (s : DState) : Prop :=
  ∀ e ∈ s.stateHistory, ∀ k : StateKey, ∀ q : ℚ,
    e.rawScores.get k = some q → 0 ≤ q ∧ q ≤ 1

/-- The three fatigue conditions hold at every call of a run. -/
def qualRun (cfg : Config) : DState → List (Features × ℚ) → Bool
  | _, [] => true
  | s, (f, t) :: rest =>
      qualifiesFatigue cfg s f && qualRun cfg (predictState cfg s f t).2 rest

/-- Formalization of the claimed statistics shape after a reset: a
populated record reporting `total_predictions = 0` and
`most_common_state = None`. -/
def statsReportZero (o : Option Stats) : Prop :=
  ∃ r, o = some r ∧ r.totalPredictions = 0 ∧ r.mostCommonState = none

/-- A fully populated reference configuration for concrete runs. -/
def cfgRef : Config :=
  { thresholds :=
      { relaxed := { rms_max := 3/10, gsr_max := 3/10 }
        focused := { rms_min := 3/10, rms_max := 7/10, gsr_min := 3/10,
                     gsr_max := 7/10, mdf_min := 1/2 }
        stressed := { rms_min := 3/5, gsr_min := 3/5, mdf_min := 3/5 }
        fatigued := { mdf_max := 2/5, duration_min := 30 } }
    smoothing := { alpha := 3/10, voting_window_sec := 5, rejection_threshold := 2/5 } }

/-- The reference configuration with a high rejection threshold. -/
def cfgHighRejection : Config :=
  { cfgRef with smoothing := { cfgRef.smoothing with rejection_threshold := 9/10 } }

/-- Features of the relaxed concrete scenario of the spec. -/
def relaxFeatures : Features :=
  { rms := some (1/10), mdf := some (3/10), gsr_tonic := some (3/20) }

/-- Features whose best score stays below a high rejection threshold. -/
def flatFeatures : Features :=
  { rms := some (3/4), mdf := some (1/10), gsr_tonic := some (3/4) }

/-- Low rms / low mdf features satisfying the two pointwise fatigue
conditions. -/
def fatigueFeatures : Features :=
  { rms := some (1/10), mdf := some (1/10), gsr_tonic := some (1/10) }

/-- A detector state with a strictly negative stored decline rate (not
reachable from construction, where the rate is pinned at 0). -/
def primedState : DState := { initState with rmsDeclineRate := -(3/100) }

/-- Detector state after one prediction call on the reference input. -/
def stateAfterOne : DState := (predictState cfgRef initState relaxFeatures 0).2

/-- The feature dict with the 0.5 defaults filled in for missing keys. -/
def fillDefaults (f : Features) : Features :=
  { rms := some (f.rms.getD (1/2))
    mdf := some (f.mdf.getD (1/2))
    gsr_tonic := some (f.gsr_tonic.getD (1/2)) }

/-- A uniform score dict for concrete smoothing checks. -/
def refRaw : Scores := ⟨1/4, 1/4, 1/4, 1/4⟩

/-- A history entry as `_update_history` writes it. -/
def refEntry : HistEntry :=
  { state := .NEUTRAL, confidence := 1/2, rawScores := .empty, timestamp := 0 }

/-- A one-entry history. -/
def refHist : List HistEntry := [refEntry]

/-- The entry appended to the history by the first reference call. -/
def entryAfterOne : HistEntry :=
  { state := .RELAXED, confidence := 5/8, rawScores := .empty, timestamp := 0 }

/-- A thresholds dict with all four per-state blocks present but the
required `relaxed.rms_max` and `focused.mdf_min` keys missing. -/
def threshDictLazy : ThreshDict :=
  { relaxed := some { rms_max := none, gsr_max := some (3/10) }
    focused := some { rms_min := some (3/10), rms_max := some (7/10),
                      gsr_min := some (3/10), gsr_max := some (7/10),
                      mdf_min := none }
    stressed := some { rms_min := some (3/5), gsr_min := some (3/5),
                       mdf_min := some (3/5) }
    fatigued := some { mdf_max := some (2/5), duration_min := some 30 } }

/-- A fully populated smoothing dict. -/
def smoothDictLazy : SmoothDict :=
  { alpha := some (3/10), voting_window_sec := some 5,
    rejection_threshold := some (2/5) }

/-- A raw configuration dict with all top-level blocks present but the
required `relaxed.rms_max` and `focused.mdf_min` threshold keys missing. -/
def cfgDictLazy : CfgDict :=
  { emotional_states := some
      { thresholds := some threshDictLazy
        smoothing := some smoothDictLazy } }

/-- A thresholds dict missing the whole `relaxed` block. -/
def threshDictNoRelaxed : ThreshDict :=
  { relaxed := none, focused := none, stressed := none, fatigued := none }

/-- A focused-thresholds dict missing `mdf_min`. -/
def focusedDictNoMdf : FocusedDict :=
  { rms_min := some (3/10), rms_max := some (7/10), gsr_min := some (3/10),
    gsr_max := some (7/10), mdf_min := none }

/-! ### Bounds on the raw scores -/

/-- A point inside a band is at normalized distance at most 1/2 from the
band centre (and a zero-width band contributes 0 via division by zero). -/
theorem abs_band_div_le_half {lo hi x : ℚ} (hlo : lo ≤ x) (hhi : x ≤ hi) :
    |x - (lo + hi) / 2| / (hi - lo) ≤ 1/2 := by
  rcases eq_or_lt_of_le (hlo.trans hhi) with he | hpos
  · have hzero : hi - lo = 0 := by rw [← he]; ring
    rw [hzero, div_zero]
    norm_num
  · have hr : 0 < hi - lo := by linarith
    rw [div_le_iff₀ hr, abs_le]
    constructor <;> nlinarith

theorem relaxStepRms_nonneg (th : RelaxedThresholds) (rms : ℚ) :
    0 ≤ relaxStepRms th rms := by
  simp only [relaxStepRms]
  split_ifs with h
  · exact le_max_left 0 _
  · push_neg at h
    exact le_min (by norm_num) (by linarith)

theorem relaxStepGsr_nonneg (th : RelaxedThresholds) {score : ℚ}
    (hs : 0 ≤ score) (gsr_tonic : ℚ) : 0 ≤ relaxStepGsr th score gsr_tonic := by
  simp only [relaxStepGsr]
  split_ifs with h
  · exact le_max_left 0 _
  · exact hs

theorem calcRelaxScore_nonneg (th : RelaxedThresholds) (rms gsr_tonic mdf : ℚ) :
    0 ≤ calcRelaxScore th rms gsr_tonic mdf :=
  relaxStepGsr_nonneg th (relaxStepRms_nonneg th rms) gsr_tonic

theorem focusStepRms_nonneg (th : FocusedThresholds) (rms : ℚ) :
    0 ≤ focusStepRms th rms := by
  simp only [focusStepRms]
  split_ifs with h
  · have hd := abs_band_div_le_half h.1 h.2
    exact le_min (by norm_num) (by linarith)
  · exact le_max_left 0 _

theorem focusStepGsr_nonneg (th : FocusedThresholds) {score : ℚ}
    (hs : 0 ≤ score) (gsr_tonic : ℚ) : 0 ≤ focusStepGsr th score gsr_tonic := by
  simp only [focusStepGsr]
  split_ifs with h
  · have hd := abs_band_div_le_half h.1 h.2
    refine le_min (by norm_num) (by nlinarith)
  · exact hs

theorem focusStepMdf_nonneg (th : FocusedThresholds) {score : ℚ}
    (hs : 0 ≤ score) (mdf : ℚ) : 0 ≤ focusStepMdf th score mdf := by
  simp only [focusStepMdf]
  split_ifs with h
  · refine le_min (by norm_num) (by nlinarith)
  · exact hs

theorem calcFocusScore_nonneg (th : FocusedThresholds) (rms gsr_tonic mdf : ℚ) :
    0 ≤ calcFocusScore th rms gsr_tonic mdf :=
  focusStepMdf_nonneg th (focusStepGsr_nonneg th (focusStepRms_nonneg th rms) gsr_tonic) mdf

theorem stressStepRms_bounds (th : StressedThresholds) (rms : ℚ) :
    3/10 ≤ stressStepRms th rms ∧ stressStepRms th rms ≤ 1 := by
  simp only [stressStepRms]
  split_ifs with h
  · exact ⟨le_min (by norm_num) (by nlinarith), min_le_left _ _⟩
  · norm_num

theorem stressStepGsr_bounds (th : StressedThresholds) {score : ℚ}
    (hs : 3/10 ≤ score) (hs1 : score ≤ 1) (gsr_tonic : ℚ) :
    3/10 ≤ stressStepGsr th score gsr_tonic ∧ stressStepGsr th score gsr_tonic ≤ 1 := by
  simp only [stressStepGsr]
  split_ifs with h
  · exact ⟨le_min (by norm_num) (by nlinarith), min_le_left _ _⟩
  · exact ⟨hs, hs1⟩

theorem stressStepMdf_bounds (th : StressedThresholds) {score : ℚ}
    (hs : 3/10 ≤ score) (hs1 : score ≤ 1) (mdf : ℚ) :
    3/10 ≤ stressStepMdf th score mdf ∧ stressStepMdf th score mdf ≤ 1 := by
  simp only [stressStepMdf]
  split_ifs with h
  · exact ⟨le_min (by norm_num) (by nlinarith), min_le_left _ _⟩
  · exact ⟨hs, hs1⟩

theorem calcStressScore_bounds (th : StressedThresholds) (rms gsr_tonic mdf : ℚ) :
    3/10 ≤ calcStressScore th rms gsr_tonic mdf ∧ calcStressScore th rms gsr_tonic mdf ≤ 1 := by
  have h1 := stressStepRms_bounds th rms
  have h2 := stressStepGsr_bounds th h1.1 h1.2 gsr_tonic
  exact stressStepMdf_bounds th h2.1 h2.2 mdf

/-- Componentwise bounds on the unnormalized scores: relaxed and focused
are nonnegative, stressed lies in [0.3, 1], fatigued is the constant
base score 0.3. -/
theorem preScores_bounds (cfg : Config) (f : Features) :
    0 ≤ (preScores cfg f).relaxed ∧ 0 ≤ (preScores cfg f).focused ∧
      3/10 ≤ (preScores cfg f).stressed ∧ (preScores cfg f).stressed ≤ 1 ∧
      (preScores cfg f).fatigued = 3/10 := by
  simp only [preScores]
  exact ⟨calcRelaxScore_nonneg _ _ _ _, calcFocusScore_nonneg _ _ _ _,
    (calcStressScore_bounds _ _ _ _).1, (calcStressScore_bounds _ _ _ _).2, by trivial⟩

/-- The pre-normalization sum is strictly positive on every input. -/
theorem preScores_total_pos (cfg : Config) (f : Features) :
    0 < (preScores cfg f).total := by
  have h := preScores_bounds cfg f
  simp only [Scores.total]
  rw [h.2.2.2.2]
  nlinarith [h.1, h.2.1, h.2.2.1]

/-- Every normalized raw score lies in [0, 1]. -/
theorem calcRawScores_mem (cfg : Config) (f : Features) (k : StateKey) :
    0 ≤ (calcRawScores cfg f).get k ∧ (calcRawScores cfg f).get k ≤ 1 := by
  have hb := preScores_bounds cfg f
  have ht := preScores_total_pos cfg f
  obtain ⟨h1, h2, h3, h4, h5⟩ := hb
  have htot : (preScores cfg f).total =
      (preScores cfg f).relaxed + (preScores cfg f).focused +
        (preScores cfg f).stressed + (preScores cfg f).fatigued := rfl
  simp only [calcRawScores, normalizeScores, if_pos ht]
  cases k <;> simp only [Scores.get] <;>
    exact ⟨div_nonneg (by linarith) ht.le, (div_le_one ht).mpr (by linarith)⟩

/-- After normalization, the fatigued score never exceeds the stressed
score (stressed starts at the same 0.3 base and only gains rewards). -/
theorem calcRawScores_fatigued_le_stressed (cfg : Config) (f : Features) :
    (calcRawScores cfg f).fatigued ≤ (calcRawScores cfg f).stressed := by
  have hb := preScores_bounds cfg f
  have ht := preScores_total_pos cfg f
  simp only [calcRawScores, normalizeScores, if_pos ht]
  have hfs : (preScores cfg f).fatigued ≤ (preScores cfg f).stressed := by
    rw [hb.2.2.2.2]; exact hb.2.2.1
  exact (div_le_div_iff_of_pos_right ht).mpr hfs

/-! ### Argmax lemmas -/

/-- The selected key attains the maximum score. -/
theorem bestKey_le (s : Scores) (k : StateKey) : s.get k ≤ s.get (bestKey s) := by
  simp only [bestKey, better]
  split_ifs <;> cases k <;> simp_all [Scores.get] <;> linarith

/-- Any key strictly earlier in iteration order than the selected key has
a strictly smaller score (Python `max` keeps the first maximum). -/
theorem bestKey_first (s : Scores) (k : StateKey)
    (h : keyIdx k < keyIdx (bestKey s)) : s.get k < s.get (bestKey s) := by
  revert h
  simp only [bestKey, better]
  split_ifs <;> cases k <;> simp_all [Scores.get, keyIdx] <;> linarith

/-- When the fatigued score does not strictly exceed the stressed score,
the argmax never selects the fatigued key. -/
theorem bestKey_ne_fatigued {s : Scores} (h : s.fatigued ≤ s.stressed) :
    bestKey s ≠ .fatigued := by
  simp only [bestKey, better]
  split_ifs <;> simp_all [Scores.get] <;> linarith

/-! ### Smoothing lemmas -/

/-- First call: with empty history the smoothed scores are the raw
scores. -/
theorem applySmoothing_nil (alpha : ℚ) (raw : Scores) :
    applySmoothing alpha [] raw = raw := rfl

/-- The exponential blend formula, per key, for a nonempty history. -/
theorem applySmoothing_get (alpha : ℚ) {hist : List HistEntry}
    {lastP : HistEntry} (hlast : hist.getLast? = some lastP) (raw : Scores)
    (k : StateKey) :
    (applySmoothing alpha hist raw).get k =
      alpha * raw.get k +
        (1 - alpha) * ((lastP.rawScores.get k).getD (raw.get k)) := by
  simp only [applySmoothing, hlast]
  cases k <;> rfl

/-- When the last stored entry carries the empty score dict, the blend
collapses to the raw scores. -/
theorem applySmoothing_of_empty_stored (alpha : ℚ) {hist : List HistEntry}
    {lastP : HistEntry} (hlast : hist.getLast? = some lastP)
    (hclean : lastP.rawScores = .empty) (raw : Scores) :
    applySmoothing alpha hist raw = raw := by
  cases raw with
  | mk a b c d =>
      simp only [applySmoothing, hlast, hclean, StoredScores.empty,
        StoredScores.get, Scores.get, Option.getD_none, Scores.mk.injEq]
      refine ⟨by ring, by ring, by ring, by ring⟩

/-- On a clean history the smoothed scores equal the raw scores. -/
theorem smoothedScores_eq_raw (cfg : Config) {s : DState} (h : histClean s)
    (f : Features) : smoothedScores cfg s f = calcRawScores cfg f := by
  unfold smoothedScores
  rcases hlast : s.stateHistory.getLast? with _ | lastP
  · simp only [applySmoothing, hlast]
  · have hmem : lastP ∈ s.stateHistory := by
      obtain ⟨h1, h2⟩ :=
        List.mem_getLast?_eq_getLast (l := s.stateHistory) (x := lastP)
          (Option.mem_def.mpr hlast)
      exact h2 ▸ List.getLast_mem h1
    exact applySmoothing_of_empty_stored _ hlast (h lastP hmem) _

/-! ### Decline-rate and fatigue-detector lemmas -/

/-- The decline-rate update always produces 0 when it recomputes (the
source derives it from five copies of the same sample), and otherwise
keeps the stored rate. -/
theorem updatedDeclineRate_eq (s : DState) (rms : ℚ) :
    updatedDeclineRate s rms =
      if s.confHistory.length ≥ 10 then 0 else s.rmsDeclineRate := by
  simp only [updatedDeclineRate, List.length_replicate, List.length_drop]
  split_ifs <;>
    first
      | (show (rms - rms) / 3 = 0
         rw [sub_self, zero_div])
      | rfl
      | omega

/-- `_detect_fatigue` leaves the history deques, counters and last state
untouched, and writes exactly the updated decline rate. -/
theorem detectFatigue_preserves (cfg : Config) (s : DState) (f : Features)
    (now : ℚ) :
    (detectFatigue cfg s f now).2.stateHistory = s.stateHistory ∧
      (detectFatigue cfg s f now).2.confHistory = s.confHistory ∧
      (detectFatigue cfg s f now).2.transitionCount = s.transitionCount ∧
      (detectFatigue cfg s f now).2.lastState = s.lastState ∧
      (detectFatigue cfg s f now).2.rmsDeclineRate =
        updatedDeclineRate s (f.rms.getD (1/2)) := by
  obtain ⟨sh, ch, fs, rate, tc, ls⟩ := s
  simp only [detectFatigue]
  split_ifs with hq <;> cases fs <;> simp_all [detectFatigue] <;> split_ifs <;> simp

/-- A non-qualifying sample clears the fatigue timer. -/
theorem detectFatigue_reset (cfg : Config) (s : DState) (f : Features)
    (now : ℚ) (hq : qualifiesFatigue cfg s f = false) :
    (detectFatigue cfg s f now).1 = false ∧
      (detectFatigue cfg s f now).2.fatigueStart = none := by
  obtain ⟨sh, ch, fs, rate, tc, ls⟩ := s
  simp [detectFatigue, hq]

/-- A qualifying sample with the timer unset starts it at `now` and does
not yet report fatigue. -/
theorem detectFatigue_start (cfg : Config) (s : DState) (f : Features)
    (now : ℚ) (hq : qualifiesFatigue cfg s f = true)
    (h0 : s.fatigueStart = none) :
    (detectFatigue cfg s f now).1 = false ∧
      (detectFatigue cfg s f now).2.fatigueStart = some now := by
  obtain ⟨sh, ch, fs, rate, tc, ls⟩ := s
  cases h0
  simp [detectFatigue, hq]

/-- A qualifying sample with the timer running keeps it and reports
fatigue exactly when the elapsed time reaches `duration_min`. -/
theorem detectFatigue_running (cfg : Config) (s : DState) (f : Features)
    (now t0 : ℚ) (hq : qualifiesFatigue cfg s f = true)
    (h0 : s.fatigueStart = some t0) :
    ((detectFatigue cfg s f now).1 =
        decide (now - t0 ≥ cfg.thresholds.fatigued.duration_min)) ∧
      (detectFatigue cfg s f now).2.fatigueStart = some t0 := by
  obtain ⟨sh, ch, fs, rate, tc, ls⟩ := s
  cases h0
  simp only [detectFatigue, hq, if_true]
  split_ifs with h <;> simp [h]

/-! ### History-update lemmas -/

/-- `_update_history` never touches the fatigue timer or decline rate. -/
theorem updateHistory_preserves (cfg : Config) (s : DState)
    (st : EmotionState) (conf now : ℚ) :
    (updateHistory cfg s st conf now).fatigueStart = s.fatigueStart ∧
      (updateHistory cfg s st conf now).rmsDeclineRate = s.rmsDeclineRate := by
  simp only [updateHistory]
  split_ifs <;> simp

/-- `_update_history` appends only entries carrying the empty score dict,
so a clean history stays clean. -/
theorem histClean_updateHistory (cfg : Config) {s : DState}
    (h : histClean s) (st : EmotionState) (conf now : ℚ) :
    histClean (updateHistory cfg s st conf now) := by
  intro e he
  have hmem : e ∈ s.stateHistory ++
      [{ state := st, confidence := conf, rawScores := .empty, timestamp := now }] := by
    simp only [updateHistory] at he
    split_ifs at he <;> simp only [dequeAppend] at he <;>
      exact List.drop_subset _ _ he
  rcases List.mem_append.mp hmem with hin | hin
  · exact h e hin
  · rw [List.mem_singleton.mp hin]

/-- One prediction call keeps the history clean. -/
theorem histClean_predictState (cfg : Config) {s : DState} (h : histClean s)
    (f : Features) (now : ℚ) : histClean (predictState cfg s f now).2 := by
  have hfat : histClean (detectFatigue cfg s f now).2 := by
    intro e he
    rw [(detectFatigue_preserves cfg s f now).1] at he
    exact h e he
  exact histClean_updateHistory cfg hfat _ _ _

/-! ### Prediction-call projection lemmas -/

/-- The prediction's `raw_scores` field is the unsmoothed normalized score
set. -/
theorem predictState_rawScores (cfg : Config) (s : DState) (f : Features)
    (now : ℚ) : (predictState cfg s f now).1.rawScores = calcRawScores cfg f := by
  simp only [predictState]

/-- The decline rate stored by a call is the one computed by
`_detect_fatigue`. -/
theorem predictState_rate (cfg : Config) (s : DState) (f : Features) (now : ℚ) :
    (predictState cfg s f now).2.rmsDeclineRate =
      updatedDeclineRate s (f.rms.getD (1/2)) := by
  simp only [predictState]
  rw [(updateHistory_preserves cfg _ _ _ _).2,
    (detectFatigue_preserves cfg s f now).2.2.2.2]

/-- The fatigue timer after a call is whatever `_detect_fatigue` left. -/
theorem predictState_fatigueStart (cfg : Config) (s : DState) (f : Features)
    (now : ℚ) :
    (predictState cfg s f now).2.fatigueStart =
      (detectFatigue cfg s f now).2.fatigueStart := by
  simp only [predictState]
  rw [(updateHistory_preserves cfg _ _ _ _).1]

/-- Without the fatigue override and without rejection, the call reports
the argmax state with its smoothed score as confidence. -/
theorem predictState_no_override (cfg : Config) (s : DState) (f : Features)
    (now : ℚ) (hfat : (detectFatigue cfg s f now).1 = false)
    (hrej : ¬ (smoothedScores cfg s f).get (bestKey (smoothedScores cfg s f)) <
        cfg.smoothing.rejection_threshold) :
    (predictState cfg s f now).1.state =
        stateMapping (bestKey (smoothedScores cfg s f)) ∧
      (predictState cfg s f now).1.confidence =
        (smoothedScores cfg s f).get (bestKey (smoothedScores cfg s f)) ∧
      (predictState cfg s f now).1.reasoning =
        genReasoning (stateMapping (bestKey (smoothedScores cfg s f)))
          (smoothedScores cfg s f) f := by
  simp only [predictState, hfat, Bool.false_eq_true, if_false, if_neg hrej]
  exact ⟨by trivial, by trivial, by trivial⟩

/-- Without the fatigue override but with a best score below the
threshold, the call is rejected to Neutral with complementary
confidence. -/
theorem predictState_rejected (cfg : Config) (s : DState) (f : Features)
    (now : ℚ) (hfat : (detectFatigue cfg s f now).1 = false)
    (hrej : (smoothedScores cfg s f).get (bestKey (smoothedScores cfg s f)) <
        cfg.smoothing.rejection_threshold) :
    (predictState cfg s f now).1.state = .NEUTRAL ∧
      (predictState cfg s f now).1.confidence =
        1 - (smoothedScores cfg s f).get (bestKey (smoothedScores cfg s f)) ∧
      (predictState cfg s f now).1.reasoning =
        .lowConfidence (bestKey (smoothedScores cfg s f))
          ((smoothedScores cfg s f).get (bestKey (smoothedScores cfg s f))) := by
  simp only [predictState, hfat, Bool.false_eq_true, if_false, if_pos hrej]
  exact ⟨by trivial, by trivial, by trivial⟩

/-- With the fatigue override the call reports Fatigued. -/
theorem predictState_fatigue_override (cfg : Config) (s : DState)
    (f : Features) (now : ℚ) (hfat : (detectFatigue cfg s f now).1 = true) :
    (predictState cfg s f now).1.state = .FATIGUED ∧
      (predictState cfg s f now).1.confidence =
        max (7/10) (smoothedScores cfg s f).fatigued := by
  simp only [predictState, hfat, if_true]
  exact ⟨by trivial, by trivial⟩

/-- When the stored decline rate is 0, the fatigue conditions cannot all
hold (the update keeps the rate at 0 either way). -/
theorem qualifiesFatigue_of_rate_zero (cfg : Config) {s : DState}
    (h : s.rmsDeclineRate = 0) (f : Features) :
    qualifiesFatigue cfg s f = false := by
  simp only [qualifiesFatigue, updatedDeclineRate_eq, h, ite_self,
    decide_eq_false_iff_not]
  rintro ⟨-, -, hlt⟩
  norm_num at hlt

/-- On a clean history, a call on which `_detect_fatigue` reports false
never returns Fatigued: the smoothed scores coincide with the raw scores,
whose argmax never selects the fatigued key, and the rejection path
returns Neutral. -/
theorem predictState_state_of_not_fatigue (cfg : Config) {s : DState}
    (hc : histClean s) (f : Features) (now : ℚ)
    (hfat : (detectFatigue cfg s f now).1 = false) :
    (predictState cfg s f now).1.state ≠ .FATIGUED := by
  have hsm := smoothedScores_eq_raw cfg hc f
  have hfs : (smoothedScores cfg s f).fatigued ≤ (smoothedScores cfg s f).stressed := by
    rw [hsm]; exact calcRawScores_fatigued_le_stressed cfg f
  have hbk := bestKey_ne_fatigued hfs
  by_cases hrej : (smoothedScores cfg s f).get (bestKey (smoothedScores cfg s f)) <
      cfg.smoothing.rejection_threshold
  · rw [(predictState_rejected cfg s f now hfat hrej).1]
    simp
  · rw [(predictState_no_override cfg s f now hfat hrej).1]
    cases hb : bestKey (smoothedScores cfg s f) <;> simp_all [stateMapping]

/-- Concrete evaluation of the first reference call. -/
theorem stateAfterOne_eval : stateAfterOne =
    { stateHistory := [entryAfterOne]
      confHistory := [5/8]
      fatigueStart := none
      rmsDeclineRate := 0
      transitionCount := 1
      lastState := .RELAXED } := by
  norm_num [stateAfterOne, entryAfterOne, predictState, smoothedScores, applySmoothing,
    calcRawScores, preScores,
    normalizeScores, calcRelaxScore, relaxStepRms, relaxStepGsr, calcFocusScore,
    focusStepRms, focusStepGsr, focusStepMdf, calcStressScore, stressStepRms,
    stressStepGsr, stressStepMdf, detectFatigue, qualifiesFatigue, updatedDeclineRate,
    bestKey, better, Scores.get, Scores.total, stateMapping, genReasoning,
    updateHistory, dequeAppend, histCap, cfgRef, relaxFeatures, initState,
    abs_of_nonpos, abs_of_nonneg, Rat.floor_def']
  decide

/-! ### Claim theorems -/

/-- Claim C6: the four raw scores are each divided by their sum, which is
in fact always strictly positive, so the returned score set sums to 1 with
each entry being the pre-normalization score over the total; a zero-sum
score set would be returned unchanged with no division performed. -/
theorem raw_score_normalization (cfg : Config) (f : Features) :
    0 < (preScores cfg f).total ∧
      (calcRawScores cfg f).total = 1 ∧
      (∀ k, (calcRawScores cfg f).get k =
        (preScores cfg f).get k / (preScores cfg f).total) ∧
      (∀ s : Scores, s.total = 0 → normalizeScores s = s) := by
  have ht := preScores_total_pos cfg f
  have hne : (preScores cfg f).total ≠ 0 := ne_of_gt ht
  refine ⟨ht, ?_, ?_, ?_⟩
  · have hne2 : (preScores cfg f).relaxed + (preScores cfg f).focused +
        (preScores cfg f).stressed + (preScores cfg f).fatigued ≠ 0 := hne
    unfold calcRawScores normalizeScores
    rw [if_pos ht]
    simp only [Scores.total]
    field_simp
  · intro k
    simp only [calcRawScores, normalizeScores, if_pos ht]
    cases k <;> rfl
  · intro sc hsc
    simp [normalizeScores, hsc]

/-- Witness for C6 at the reference configuration and input, including the
zero-sum branch at the all-zero score set. -/
theorem raw_score_normalization_witness :
    0 < (preScores cfgRef relaxFeatures).total ∧
      (calcRawScores cfgRef relaxFeatures).total = 1 ∧
      (Scores.total ⟨0, 0, 0, 0⟩ = 0 ∧
        normalizeScores ⟨0, 0, 0, 0⟩ = ⟨0, 0, 0, 0⟩) :=
  ⟨(raw_score_normalization cfgRef relaxFeatures).1,
   (raw_score_normalization cfgRef relaxFeatures).2.1,
   by norm_num [Scores.total],
   (raw_score_normalization cfgRef relaxFeatures).2.2.2 ⟨0, 0, 0, 0⟩
     (by norm_num [Scores.total])⟩

/-- Claim C7: a missing `rms`, `mdf` or `gsr_tonic` key is read as the
default 0.5 by every consumer — raw scoring, fatigue detection, reasoning
generation and the whole (total, non-raising) prediction call agree with
the same call on the defaults-filled feature dict. -/
theorem missing_feature_defaults (cfg : Config) (s : DState) (f : Features)
    (now : ℚ) :
    calcRawScores cfg f = calcRawScores cfg (fillDefaults f) ∧
      detectFatigue cfg s f now = detectFatigue cfg s (fillDefaults f) now ∧
      (∀ st sm, genReasoning st sm f = genReasoning st sm (fillDefaults f)) ∧
      predictState cfg s f now = predictState cfg s (fillDefaults f) now := by
  have hraw : calcRawScores cfg (fillDefaults f) = calcRawScores cfg f := by
    simp [calcRawScores, preScores, fillDefaults]
  have hfat : detectFatigue cfg s (fillDefaults f) now = detectFatigue cfg s f now := by
    simp [detectFatigue, qualifiesFatigue, updatedDeclineRate, fillDefaults]
  have hreas : ∀ st sm, genReasoning st sm (fillDefaults f) = genReasoning st sm f := by
    intro st sm
    simp [genReasoning, fillDefaults]
  refine ⟨hraw.symm, hfat.symm, fun st sm => (hreas st sm).symm, ?_⟩
  simp only [predictState, smoothedScores, hraw, hfat, hreas]

/-- Claim C2: with empty history the smoothed set equals the raw set; with
history, each smoothed score is `alpha * raw + (1 - alpha) * previous`
where `previous` is the value stored for that key in the last history
entry, defaulting to the current raw value — and every entry a prediction
call appends stores no per-key values at all, so the default always
applies on subsequent calls. -/
theorem smoothing_formula (cfg : Config) :
    (∀ raw, applySmoothing cfg.smoothing.alpha [] raw = raw) ∧
      (∀ (hist : List HistEntry) (lastP : HistEntry) (raw : Scores) (k : StateKey),
        hist.getLast? = some lastP →
          (applySmoothing cfg.smoothing.alpha hist raw).get k =
            cfg.smoothing.alpha * raw.get k +
              (1 - cfg.smoothing.alpha) * ((lastP.rawScores.get k).getD (raw.get k))) ∧
      (∀ (s : DState) (f : Features) (now : ℚ) (e : HistEntry),
        e ∈ (predictState cfg s f now).2.stateHistory →
          e ∉ s.stateHistory → e.rawScores = StoredScores.empty) := by
  refine ⟨fun raw => applySmoothing_nil _ raw,
    fun hist lastP raw k h => applySmoothing_get _ h raw k, ?_⟩
  intro s f now e he hnot
  have hpres := (detectFatigue_preserves cfg s f now).1
  simp only [predictState, updateHistory] at he
  split_ifs at he <;> simp only [dequeAppend] at he <;>
    · have hmem := List.drop_subset _ _ he
      rw [hpres] at hmem
      rcases List.mem_append.mp hmem with h1 | h1
      · exact absurd h1 hnot
      · rw [List.mem_singleton.mp h1]

/-- Witness for C2: first call passthrough, the blend formula on a
one-entry history, and the emptiness of a concretely appended entry. -/
theorem smoothing_formula_witness :
    applySmoothing cfgRef.smoothing.alpha [] refRaw = refRaw ∧
      refHist.getLast? = some refEntry ∧
      (applySmoothing cfgRef.smoothing.alpha refHist refRaw).get .relaxed =
        cfgRef.smoothing.alpha * refRaw.get .relaxed +
          (1 - cfgRef.smoothing.alpha) *
            ((refEntry.rawScores.get .relaxed).getD (refRaw.get .relaxed)) ∧
      entryAfterOne ∈ stateAfterOne.stateHistory ∧
      entryAfterOne ∉ initState.stateHistory ∧
      entryAfterOne.rawScores = StoredScores.empty :=
  ⟨(smoothing_formula cfgRef).1 refRaw, rfl,
   (smoothing_formula cfgRef).2.1 refHist refEntry refRaw .relaxed rfl,
   by rw [stateAfterOne_eval]; exact List.mem_singleton.mpr rfl,
   by simp [initState],
   (smoothing_formula cfgRef).2.2 initState relaxFeatures 0 entryAfterOne
     (by show entryAfterOne ∈ stateAfterOne.stateHistory
         rw [stateAfterOne_eval]
         exact List.mem_singleton.mpr rfl)
     (by simp [initState])⟩

/-- Claim C4: whenever the fatigue override does not fire, the decision is
the argmax of the smoothed score set with ties broken by the first key in
iteration order; a best score below `rejection_threshold` yields Neutral
with confidence `1 - score` and reasoning naming the rejected candidate
and its score, otherwise the best state with its score as confidence. -/
theorem rejection_policy (cfg : Config) (s : DState) (f : Features) (now : ℚ)
    (hfat : (detectFatigue cfg s f now).1 = false) :
    (∀ k, (smoothedScores cfg s f).get k ≤
        (smoothedScores cfg s f).get (bestKey (smoothedScores cfg s f))) ∧
      (∀ k, keyIdx k < keyIdx (bestKey (smoothedScores cfg s f)) →
        (smoothedScores cfg s f).get k <
          (smoothedScores cfg s f).get (bestKey (smoothedScores cfg s f))) ∧
      ((smoothedScores cfg s f).get (bestKey (smoothedScores cfg s f)) <
          cfg.smoothing.rejection_threshold →
        (predictState cfg s f now).1.state = .NEUTRAL ∧
          (predictState cfg s f now).1.confidence =
            1 - (smoothedScores cfg s f).get (bestKey (smoothedScores cfg s f)) ∧
          (predictState cfg s f now).1.reasoning =
            .lowConfidence (bestKey (smoothedScores cfg s f))
              ((smoothedScores cfg s f).get (bestKey (smoothedScores cfg s f)))) ∧
      (¬ (smoothedScores cfg s f).get (bestKey (smoothedScores cfg s f)) <
          cfg.smoothing.rejection_threshold →
        (predictState cfg s f now).1.state =
            stateMapping (bestKey (smoothedScores cfg s f)) ∧
          (predictState cfg s f now).1.confidence =
            (smoothedScores cfg s f).get (bestKey (smoothedScores cfg s f))) :=
  ⟨bestKey_le _, bestKey_first _,
   fun hrej => predictState_rejected cfg s f now hfat hrej,
   fun hrej => ⟨(predictState_no_override cfg s f now hfat hrej).1,
     (predictState_no_override cfg s f now hfat hrej).2.1⟩⟩

/-- Witness for C4: on the reference input the override does not fire, the
best score clears the threshold and the call reports the argmax state. -/
theorem rejection_policy_witness :
    (detectFatigue cfgRef initState relaxFeatures 0).1 = false ∧
      ¬ (smoothedScores cfgRef initState relaxFeatures).get
          (bestKey (smoothedScores cfgRef initState relaxFeatures)) <
        cfgRef.smoothing.rejection_threshold ∧
      (predictState cfgRef initState relaxFeatures 0).1.state =
        stateMapping (bestKey (smoothedScores cfgRef initState relaxFeatures)) :=
  ⟨by norm_num [detectFatigue, qualifiesFatigue, updatedDeclineRate, initState,
      relaxFeatures, cfgRef],
   by norm_num [smoothedScores, applySmoothing, calcRawScores, preScores,
      normalizeScores, calcRelaxScore, relaxStepRms, relaxStepGsr, calcFocusScore,
      focusStepRms, focusStepGsr, focusStepMdf, calcStressScore, stressStepRms,
      stressStepGsr, stressStepMdf, bestKey, better, Scores.get, Scores.total,
      cfgRef, relaxFeatures, initState, abs_of_nonpos, abs_of_nonneg],
   ((rejection_policy cfgRef initState relaxFeatures 0
      (by norm_num [detectFatigue, qualifiesFatigue, updatedDeclineRate, initState,
        relaxFeatures, cfgRef])).2.2.2
     (by norm_num [smoothedScores, applySmoothing, calcRawScores, preScores,
        normalizeScores, calcRelaxScore, relaxStepRms, relaxStepGsr, calcFocusScore,
        focusStepRms, focusStepGsr, focusStepMdf, calcStressScore, stressStepRms,
        stressStepGsr, stressStepMdf, bestKey, better, Scores.get, Scores.total,
        cfgRef, relaxFeatures, initState, abs_of_nonpos, abs_of_nonneg])).1⟩

/-- Claim C10: with `alpha` in [0, 1] and all stored history score values
in [0, 1], every prediction's confidence lies in [0, 1] and its state is
one of the five enumeration values. -/
theorem confidence_bounds (cfg : Config) (s : DState) (f : Features) (now : ℚ)
    (halpha : 0 ≤ cfg.smoothing.alpha ∧ cfg.smoothing.alpha ≤ 1)
    (hhist : histBounded s) :
    0 ≤ (predictState cfg s f now).1.confidence ∧
      (predictState cfg s f now).1.confidence ≤ 1 ∧
      ((predictState cfg s f now).1.state = .RELAXED ∨
        (predictState cfg s f now).1.state = .FOCUSED ∨
        (predictState cfg s f now).1.state = .STRESSED ∨
        (predictState cfg s f now).1.state = .FATIGUED ∨
        (predictState cfg s f now).1.state = .NEUTRAL) := by
  have hsm : ∀ k, 0 ≤ (smoothedScores cfg s f).get k ∧
      (smoothedScores cfg s f).get k ≤ 1 := by
    intro k
    have hraw := calcRawScores_mem cfg f k
    unfold smoothedScores
    rcases hlast : s.stateHistory.getLast? with _ | lastP
    · simp only [applySmoothing, hlast]
      exact hraw
    · have hmem : lastP ∈ s.stateHistory := by
        obtain ⟨h1, h2⟩ :=
          List.mem_getLast?_eq_getLast (l := s.stateHistory) (x := lastP)
            (Option.mem_def.mpr hlast)
        exact h2 ▸ List.getLast_mem h1
      rw [applySmoothing_get _ hlast]
      rcases hv : lastP.rawScores.get k with _ | q
      · simp only [Option.getD_none]
        constructor <;> nlinarith [hraw.1, hraw.2, halpha.1, halpha.2]
      · have hq := hhist lastP hmem k q hv
        simp only [Option.getD_some]
        constructor <;> nlinarith [hraw.1, hraw.2, halpha.1, halpha.2, hq.1, hq.2]
  have hb := hsm (bestKey (smoothedScores cfg s f))
  have hf := hsm .fatigued
  rcases hfat : (detectFatigue cfg s f now).1 with _ | _
  · by_cases hrej : (smoothedScores cfg s f).get (bestKey (smoothedScores cfg s f)) <
        cfg.smoothing.rejection_threshold
    · obtain ⟨h1, h2, -⟩ := predictState_rejected cfg s f now hfat hrej
      rw [h1, h2]
      refine ⟨by linarith [hb.1, hb.2], by linarith [hb.1], by simp⟩
    · obtain ⟨h1, h2, -⟩ := predictState_no_override cfg s f now hfat hrej
      rw [h1, h2]
      refine ⟨hb.1, hb.2, ?_⟩
      cases bestKey (smoothedScores cfg s f) <;> simp [stateMapping]
  · obtain ⟨h1, h2⟩ := predictState_fatigue_override cfg s f now hfat
    rw [h1, h2]
    have hfg : (smoothedScores cfg s f).get .fatigued =
        (smoothedScores cfg s f).fatigued := rfl
    refine ⟨by positivity, ?_, by simp⟩
    rw [hfg] at hf
    exact max_le (by norm_num) hf.2

/-- Witness for C10 at the reference configuration and input. -/
theorem confidence_bounds_witness :
    (0 ≤ cfgRef.smoothing.alpha ∧ cfgRef.smoothing.alpha ≤ 1) ∧
      histBounded initState ∧
      (0 ≤ (predictState cfgRef initState relaxFeatures 0).1.confidence ∧
        (predictState cfgRef initState relaxFeatures 0).1.confidence ≤ 1 ∧
        ((predictState cfgRef initState relaxFeatures 0).1.state = .RELAXED ∨
          (predictState cfgRef initState relaxFeatures 0).1.state = .FOCUSED ∨
          (predictState cfgRef initState relaxFeatures 0).1.state = .STRESSED ∨
          (predictState cfgRef initState relaxFeatures 0).1.state = .FATIGUED ∨
          (predictState cfgRef initState relaxFeatures 0).1.state = .NEUTRAL)) :=
  ⟨by norm_num [cfgRef],
   fun e he => absurd he (List.not_mem_nil e),
   confidence_bounds cfgRef initState relaxFeatures 0 (by norm_num [cfgRef])
     (fun e he => absurd he (List.not_mem_nil e))⟩

/-- One step of the C5 invariant: on a clean history with a zero stored
decline rate, the call does not return Fatigued and the invariant is
maintained. -/
theorem predictState_step_never_fatigued (cfg : Config) {s : DState}
    (hc : histClean s) (hr : s.rmsDeclineRate = 0) (f : Features) (now : ℚ) :
    (predictState cfg s f now).1.state ≠ .FATIGUED ∧
      histClean (predictState cfg s f now).2 ∧
      (predictState cfg s f now).2.rmsDeclineRate = 0 := by
  have hq := qualifiesFatigue_of_rate_zero cfg hr f
  have hfat := (detectFatigue_reset cfg s f now hq).1
  refine ⟨predictState_state_of_not_fatigue cfg hc f now hfat,
    histClean_predictState cfg hc f now, ?_⟩
  rw [predictState_rate, updatedDeclineRate_eq, hr, ite_self]

/-- The C5 invariant propagated along a whole run. -/
theorem runDetector_never_fatigued (cfg : Config) :
    ∀ (inputs : List (Features × ℚ)) (s : DState),
      histClean s → s.rmsDeclineRate = 0 →
      ∀ p ∈ (runDetector cfg s inputs).1, p.state ≠ .FATIGUED
  | [], _, _, _, p, hp => by simp [runDetector] at hp
  | (f, t) :: rest, s, hc, hr, p, hp => by
      obtain ⟨hstep, hc2, hr2⟩ := predictState_step_never_fatigued cfg hc hr f t
      simp only [runDetector] at hp
      rcases List.mem_cons.mp hp with h | h
      · rw [h]
        exact hstep
      · exact runDetector_never_fatigued cfg rest _ hc2 hr2 p h

/-- Claim C5: over every feature sequence from construction, the
rule-based detector never returns Fatigued — the decline rate stays pinned
at 0 (it is recomputed from five copies of the current sample), so the
fatigue conditions never all hold, and in the argmax the stressed score
(base 0.3 plus nonnegative rewards) never loses to the constant fatigued
base 0.3 while preceding it in iteration order. -/
theorem never_fatigued (cfg : Config) (inputs : List (Features × ℚ))
    (p : StatePrediction) (hp : p ∈ (runDetector cfg initState inputs).1) :
    p.state ≠ .FATIGUED :=
  runDetector_never_fatigued cfg inputs initState
    (fun e he => absurd he (List.not_mem_nil e)) rfl p hp

/-- Witness for C5: the first reference prediction is a member of its own
one-call run and is not Fatigued. -/
theorem never_fatigued_witness :
    (predictState cfgRef initState relaxFeatures 0).1 ∈
        (runDetector cfgRef initState [(relaxFeatures, 0)]).1 ∧
      (predictState cfgRef initState relaxFeatures 0).1.state ≠ .FATIGUED :=
  ⟨by simp [runDetector],
   never_fatigued cfgRef [(relaxFeatures, 0)] _ (by simp [runDetector])⟩

/-- Along a qualifying run with the fatigue timer already pinned at `t0`
and a clean history, each output is Fatigued exactly when its call time is
at least `duration_min` past `t0`; the timer stays pinned. -/
theorem qualRun_running (cfg : Config) :
    ∀ (inputs : List (Features × ℚ)) (s : DState) (t0 : ℚ),
      histClean s → s.fatigueStart = some t0 → qualRun cfg s inputs = true →
      ∀ pq ∈ ((runDetector cfg s inputs).1).zip inputs,
        (pq.1.state = .FATIGUED ↔
          pq.2.2 - t0 ≥ cfg.thresholds.fatigued.duration_min)
  | [], _, _, _, _, _ => by
      intro pq hpq
      simp [runDetector] at hpq
  | (f, t) :: rest, s, t0, hc, hst, hq => by
      intro pq hpq
      simp only [qualRun, Bool.and_eq_true] at hq
      obtain ⟨hq1, hq2⟩ := hq
      have hdf := detectFatigue_running cfg s f t t0 hq1 hst
      have hstate : ((predictState cfg s f t).1.state = .FATIGUED ↔
          t - t0 ≥ cfg.thresholds.fatigued.duration_min) := by
        rcases hdec : decide (t - t0 ≥ cfg.thresholds.fatigued.duration_min)
          with _ | _
        · have hfat : (detectFatigue cfg s f t).1 = false := by
            rw [hdf.1, hdec]
          have hne := predictState_state_of_not_fatigue cfg hc f t hfat
          rw [decide_eq_false_iff_not] at hdec
          exact ⟨fun h => absurd h hne, fun h => absurd h hdec⟩
        · have hfat : (detectFatigue cfg s f t).1 = true := by
            rw [hdf.1, hdec]
          rw [decide_eq_true_eq] at hdec
          exact ⟨fun _ => hdec,
            fun _ => (predictState_fatigue_override cfg s f t hfat).1⟩
      simp only [runDetector, List.zip_cons_cons] at hpq
      rcases List.mem_cons.mp hpq with h | h
      · rw [h]
        exact hstate
      · have hc2 := histClean_predictState cfg hc f t
        have hst2 : (predictState cfg s f t).2.fatigueStart = some t0 := by
          rw [predictState_fatigueStart]
          exact hdf.2
        exact qualRun_running cfg rest _ t0 hc2 hst2 hq2 pq h

/-- Claim C1: with a positive `duration_min`, from a clean state with the
fatigue timer unset, a run on which the qualifying fatigue conditions hold
at every call returns Fatigued exactly on the calls at least
`duration_min` seconds after the first call — so a continuous qualifying
span shorter than `duration_min` never produces Fatigued and a span
reaching `duration_min` does; moreover any non-qualifying sample resets
the fatigue timer to unset, forcing the full duration to re-accumulate. -/
theorem fatigue_hysteresis (cfg : Config) (s0 : DState) (f0 : Features)
    (t0 : ℚ) (rest : List (Features × ℚ))
    (hdm : 0 < cfg.thresholds.fatigued.duration_min)
    (hclean : histClean s0) (h0 : s0.fatigueStart = none)
    (hq : qualRun cfg s0 ((f0, t0) :: rest) = true) :
    (∀ pq ∈ ((runDetector cfg s0 ((f0, t0) :: rest)).1).zip ((f0, t0) :: rest),
        (pq.1.state = .FATIGUED ↔
          pq.2.2 - t0 ≥ cfg.thresholds.fatigued.duration_min)) ∧
      (∀ (s : DState) (f : Features) (now : ℚ),
        qualifiesFatigue cfg s f = false →
          (predictState cfg s f now).2.fatigueStart = none) := by
  constructor
  · simp only [qualRun, Bool.and_eq_true] at hq
    obtain ⟨hq1, hq2⟩ := hq
    have hdf := detectFatigue_start cfg s0 f0 t0 hq1 h0
    intro pq hpq
    simp only [runDetector, List.zip_cons_cons] at hpq
    rcases List.mem_cons.mp hpq with h | h
    · rw [h]
      constructor
      · intro hF
        have hF2 : (predictState cfg s0 f0 t0).1.state = .FATIGUED := hF
        exact absurd hF2 (predictState_state_of_not_fatigue cfg hclean f0 t0 hdf.1)
      · intro hge
        have hge2 : t0 - t0 ≥ cfg.thresholds.fatigued.duration_min := hge
        rw [sub_self] at hge2
        linarith
    · have hc2 := histClean_predictState cfg hclean f0 t0
      have hst2 : (predictState cfg s0 f0 t0).2.fatigueStart = some t0 := by
        rw [predictState_fatigueStart]
        exact hdf.2
      exact qualRun_running cfg rest _ t0 hc2 hst2 hq2 pq h
  · intro s f now hqf
    rw [predictState_fatigueStart]
    exact (detectFatigue_reset cfg s f now hqf).2

/-- Witness for C1: from a state primed with a negative decline rate, two
qualifying calls 31 seconds apart (duration threshold 30) fall under the
theorem; a non-qualifying call on the reference input resets the timer. -/
theorem fatigue_hysteresis_witness :
    0 < cfgRef.thresholds.fatigued.duration_min ∧
      histClean primedState ∧
      primedState.fatigueStart = none ∧
      qualRun cfgRef primedState [(fatigueFeatures, 0), (fatigueFeatures, 31)] = true ∧
      ((∀ pq ∈ ((runDetector cfgRef primedState
            [(fatigueFeatures, 0), (fatigueFeatures, 31)]).1).zip
            [(fatigueFeatures, 0), (fatigueFeatures, 31)],
          (pq.1.state = .FATIGUED ↔
            pq.2.2 - 0 ≥ cfgRef.thresholds.fatigued.duration_min)) ∧
        (∀ (s : DState) (f : Features) (now : ℚ),
          qualifiesFatigue cfgRef s f = false →
            (predictState cfgRef s f now).2.fatigueStart = none)) :=
  ⟨by norm_num [cfgRef],
   fun e he => absurd he (List.not_mem_nil e),
   rfl,
   by norm_num +decide [qualRun, qualifiesFatigue, updatedDeclineRate, predictState,
      smoothedScores, applySmoothing, calcRawScores, preScores, normalizeScores,
      calcRelaxScore, relaxStepRms, relaxStepGsr, calcFocusScore, focusStepRms,
      focusStepGsr, focusStepMdf, calcStressScore, stressStepRms, stressStepGsr,
      stressStepMdf, detectFatigue, bestKey, better, Scores.get, Scores.total,
      stateMapping, genReasoning, updateHistory, dequeAppend, histCap, cfgRef,
      fatigueFeatures, primedState, initState, abs_of_nonpos, abs_of_nonneg,
      Rat.floor_def'],
   fatigue_hysteresis cfgRef primedState fatigueFeatures 0 [(fatigueFeatures, 31)]
     (by norm_num [cfgRef])
     (fun e he => absurd he (List.not_mem_nil e))
     rfl
     (by norm_num +decide [qualRun, qualifiesFatigue, updatedDeclineRate, predictState,
        smoothedScores, applySmoothing, calcRawScores, preScores, normalizeScores,
        calcRelaxScore, relaxStepRms, relaxStepGsr, calcFocusScore, focusStepRms,
        focusStepGsr, focusStepMdf, calcStressScore, stressStepRms, stressStepGsr,
        stressStepMdf, detectFatigue, bestKey, better, Scores.get, Scores.total,
        stateMapping, genReasoning, updateHistory, dequeAppend, histCap, cfgRef,
        fatigueFeatures, primedState, initState, abs_of_nonpos, abs_of_nonneg,
        Rat.floor_def'])⟩

/-- Counterexample to claim C3: with a high rejection threshold, the rule
pipeline rejects its best guess (returning Neutral with complementary
confidence) while the ensemble entry point — which re-runs a plain argmax
over the rule raw scores and skips the rejection override — returns the
original best state with its raw score, so state and confidence both
differ. -/
theorem ensemble_passthrough_cex :
    (ensemblePredict cfgHighRejection initState flatFeatures 0).1.state ≠
        (predictState cfgHighRejection initState flatFeatures 0).1.state ∧
      (ensemblePredict cfgHighRejection initState flatFeatures 0).1.confidence ≠
        (predictState cfgHighRejection initState flatFeatures 0).1.confidence := by
  norm_num +decide [ensemblePredict, ensemblePredictions, ensembleWeights,
    predictState, smoothedScores, applySmoothing, calcRawScores, preScores,
    normalizeScores, calcRelaxScore, relaxStepRms, relaxStepGsr, calcFocusScore,
    focusStepRms, focusStepGsr, focusStepMdf, calcStressScore, stressStepRms,
    stressStepGsr, stressStepMdf, detectFatigue, qualifiesFatigue,
    updatedDeclineRate, bestKey, better, Scores.get, Scores.total, stateMapping,
    genReasoning, updateHistory, dequeAppend, histCap, cfgHighRejection, cfgRef,
    flatFeatures, initState, abs_of_nonpos, abs_of_nonneg, Rat.floor_def']

/-- Amended C3: with no secondary scores, `_ensemble_predictions` passes
the rule raw scores through unchanged and the ensemble entry point takes a
plain argmax over them; its output coincides with the rule pipeline's
state and confidence exactly when neither the fatigue override nor the
rejection override fires (the detector state updates always coincide). -/
theorem ensemble_passthrough_amended (cfg : Config) (s : DState) (f : Features)
    (now : ℚ) (hclean : histClean s)
    (hfat : (detectFatigue cfg s f now).1 = false)
    (hrej : ¬ (smoothedScores cfg s f).get (bestKey (smoothedScores cfg s f)) <
        cfg.smoothing.rejection_threshold) :
    (∀ rs : Scores, ensemblePredictions ensembleWeights rs none = rs) ∧
      (ensemblePredict cfg s f now).1.state = (predictState cfg s f now).1.state ∧
      (ensemblePredict cfg s f now).1.confidence =
        (predictState cfg s f now).1.confidence ∧
      (ensemblePredict cfg s f now).2 = (predictState cfg s f now).2 := by
  have hsm := smoothedScores_eq_raw cfg hclean f
  obtain ⟨h1, h2, -⟩ := predictState_no_override cfg s f now hfat hrej
  have hr := predictState_rawScores cfg s f now
  refine ⟨fun rs => rfl, ?_, ?_, rfl⟩
  · rw [h1, hsm]
    simp only [ensemblePredict, ensemblePredictions, hr]
  · rw [h2, hsm]
    simp only [ensemblePredict, ensemblePredictions, hr]

/-- Witness for the amended C3 on the reference input, where no override
fires. -/
theorem ensemble_passthrough_amended_witness :
    histClean initState ∧
      (detectFatigue cfgRef initState relaxFeatures 0).1 = false ∧
      ¬ (smoothedScores cfgRef initState relaxFeatures).get
          (bestKey (smoothedScores cfgRef initState relaxFeatures)) <
        cfgRef.smoothing.rejection_threshold ∧
      ((∀ rs : Scores, ensemblePredictions ensembleWeights rs none = rs) ∧
        (ensemblePredict cfgRef initState relaxFeatures 0).1.state =
          (predictState cfgRef initState relaxFeatures 0).1.state ∧
        (ensemblePredict cfgRef initState relaxFeatures 0).1.confidence =
          (predictState cfgRef initState relaxFeatures 0).1.confidence ∧
        (ensemblePredict cfgRef initState relaxFeatures 0).2 =
          (predictState cfgRef initState relaxFeatures 0).2) :=
  ⟨fun e he => absurd he (List.not_mem_nil e),
   by norm_num [detectFatigue, qualifiesFatigue, updatedDeclineRate, initState,
      relaxFeatures, cfgRef],
   by norm_num [smoothedScores, applySmoothing, calcRawScores, preScores,
      normalizeScores, calcRelaxScore, relaxStepRms, relaxStepGsr, calcFocusScore,
      focusStepRms, focusStepGsr, focusStepMdf, calcStressScore, stressStepRms,
      stressStepGsr, stressStepMdf, bestKey, better, Scores.get, Scores.total,
      cfgRef, relaxFeatures, initState, abs_of_nonpos, abs_of_nonneg],
   ensemble_passthrough_amended cfgRef initState relaxFeatures 0
     (fun e he => absurd he (List.not_mem_nil e))
     (by norm_num [detectFatigue, qualifiesFatigue, updatedDeclineRate, initState,
        relaxFeatures, cfgRef])
     (by norm_num [smoothedScores, applySmoothing, calcRawScores, preScores,
        normalizeScores, calcRelaxScore, relaxStepRms, relaxStepGsr, calcFocusScore,
        focusStepRms, focusStepGsr, focusStepMdf, calcStressScore, stressStepRms,
        stressStepGsr, stressStepMdf, bestKey, better, Scores.get, Scores.total,
        cfgRef, relaxFeatures, initState, abs_of_nonpos, abs_of_nonneg])⟩

/-- Counterexample to claim C8: immediately after `reset_history`, the
statistics query returns the empty dict — it reports no
`total_predictions = 0` / `most_common_state = None` record at all (shown
on the concrete state left by one prediction call, then reset). -/
theorem reset_statistics_cex :
    ¬ statsReportZero (getStateStatistics (resetHistory stateAfterOne)) := by
  rintro ⟨r, hr, -, -⟩
  rw [show getStateStatistics (resetHistory stateAfterOne) = none from rfl] at hr
  exact Option.noConfusion hr

/-- Amended C8: after `reset_history()` the statistics query returns the
empty dict (the Python function returns `{}` on an empty history rather
than a populated record), and the reset state equals the construction-time
state — all buffers, the transition counter, the fatigue timer and the
decline rate are cleared. -/
theorem reset_statistics_amended (s : DState) :
    getStateStatistics (resetHistory s) = none ∧ resetHistory s = initState :=
  ⟨rfl, rfl⟩

/-- Counterexample to claim C9: a configuration dict whose `thresholds`
block is present but misses the required `relaxed.rms_max` key constructs
a detector successfully, and the missing key instead raises during the
relax-score computation of a prediction call. -/
theorem config_errors_cex :
    constructDetector cfgDictLazy = Except.ok (threshDictLazy, smoothDictLazy, 50) ∧
      calcRelaxScoreE threshDictLazy (1/2) (1/2) = Except.error ("rms_max") := by
  constructor
  · show Except.ok (threshDictLazy, smoothDictLazy, (((5 : ℚ) * 10).floor).toNat) = _
    norm_num [Rat.floor_def']
    rfl
  · rfl

/-- Amended C9: construction fails exactly when one of the keys
`emotional_states`, `thresholds`, `smoothing` or `voting_window_sec` is
missing; the per-state threshold keys are read lazily — a missing
`relaxed` block raises a key error during a prediction call, and the
focused `mdf_min` guard silently defaults to 0.5 when the key is missing
and the guard fails. -/
theorem config_errors_amended (c : CfgDict) :
    ((∃ v, constructDetector c = Except.ok v) ↔
      (∃ es, c.emotional_states = some es ∧ es.thresholds ≠ none ∧
        ∃ sm, es.smoothing = some sm ∧ sm.voting_window_sec ≠ none)) ∧
      (∀ (th : ThreshDict) (r g : ℚ), th.relaxed = none →
        calcRelaxScoreE th r g = Except.error ("relaxed")) ∧
      (∀ (ft : FocusedDict) (sc m : ℚ), ft.mdf_min = none → m < 1/2 →
        focusMdfStepE ft sc m = Except.ok sc) := by
  refine ⟨?_, ?_, ?_⟩
  · obtain ⟨es⟩ := c
    cases es with
    | none => simp [constructDetector]
    | some e =>
        obtain ⟨th, sm⟩ := e
        cases th with
        | none => simp [constructDetector]
        | some thv =>
            cases sm with
            | none => simp [constructDetector]
            | some smv =>
                obtain ⟨a, v, rj⟩ := smv
                cases v <;> simp [constructDetector]
  · intro th r g h
    simp [calcRelaxScoreE, h]
  · intro ft sc m h hm
    rw [focusMdfStepE, h]
    rw [if_neg]
    simp only [Option.getD_none]
    exact not_le.mpr hm

/-- Witness for the amended C9 at concrete dicts: construction succeeds on
the lazy dict, the relax scorer raises on a missing `relaxed` block, and
the focused mdf step silently succeeds with a missing `mdf_min`. -/
theorem config_errors_amended_witness :
    threshDictNoRelaxed.relaxed = none ∧
      calcRelaxScoreE threshDictNoRelaxed (1/2) (1/2) = Except.error ("relaxed") ∧
      focusedDictNoMdf.mdf_min = none ∧ ((1/4 : ℚ) < 1/2) ∧
      focusMdfStepE focusedDictNoMdf (1/2) (1/4) = Except.ok (1/2) :=
  ⟨rfl,
   (config_errors_amended cfgDictLazy).2.1 threshDictNoRelaxed (1/2) (1/2) rfl,
   rfl, by norm_num,
   (config_errors_amended cfgDictLazy).2.2 focusedDictNoMdf (1/2) (1/4) rfl
     (by norm_num)⟩

end EmotionHand
